import Mathlib

/-!
Shallow embedding of `src/server.js` (a Node/Express webhook server) and
verification of the specified properties of its authorization gate, URL
discoverer, content extractor, ingestion handler and token store.

JavaScript strings are modelled as Lean `String`/`List Char`; JS `Map` as an
association list; absent values (`undefined`) as `Option`; JS truthiness of
strings (empty string is falsy) is modelled explicitly.  Network fetches are
an oracle parameter `String → Except String Response` (an `Except.error`
models any axios failure, carrying `error.message`), and the cheerio HTML
parser is an abstract parameter, since both are external libraries, not code
of this repository.
-/

namespace WebhookSrv

/-! ## Small string utilities (JS semantics) -/

/-- JS truthiness of a possibly-absent string: `undefined`, `null` and the
empty string are falsy. -/
def truthy : Option String → Bool
  | none => false
  | some s => !(s == "")

/-- The JS `||` operator restricted to possibly-absent strings: returns the
left operand when truthy, otherwise the right operand. -/
def jsOr (a b : Option String) : Option String :=
  if truthy a then a else b

/-- Does `p` occur at the head of `l`? (Boolean leading-segment test.) -/
def leadsWith : List Char → List Char → Bool
  | [], _ => true
  | _ :: _, [] => false
  | p :: ps, c :: cs => p == c && leadsWith ps cs

/-- Does `pat` occur anywhere inside `l`? (JS `String.prototype.includes`.) -/
def hasSub (pat : List Char) : List Char → Bool
  | [] => leadsWith pat []
  | c :: cs => leadsWith pat (c :: cs) || hasSub pat cs

/-- JS `s.includes(pat)` on strings. -/
def containsSub (s pat : String) : Bool := hasSub pat.toList s.toList

/-- JS `String.prototype.replace(pat, '')` with a string pattern: deletes the
first occurrence of `pat`, scanning left to right; leaves the string
unchanged when `pat` does not occur. -/
def replaceFirstDel (pat : List Char) : List Char → List Char
  | [] => []
  | c :: cs =>
    if leadsWith pat (c :: cs) then (c :: cs).drop pat.length
    else c :: replaceFirstDel pat cs

/-- `authorization.replace('Bearer ', '')` from `validateWebhookToken`
(src/server.js line 34): deletes the first occurrence of the substring
`"Bearer "` anywhere in the header value. -/
def removeBearer (s : String) : String :=
  String.mk (replaceFirstDel "Bearer ".toList s.toList)

/-! ## Token store (src/server.js lines 20-30) -/

/-- Metadata stored per token in `webhookTokens`. -/
structure TokenData where
  name : String
  created : String
  lastUsed : Option String
  usageCount : Nat
deriving DecidableEq

/-- The `webhookTokens` JS `Map`, as an insertion-ordered association list. -/
abbrev TokenStore := List (String × TokenData)

/-- `Map.prototype.get` (first binding wins). -/
def storeLookup (s : TokenStore) (t : String) : Option TokenData :=
  match s with
  | [] => none
  | (k, d) :: rest => if k = t then some d else storeLookup rest t

/-- `Map.prototype.has`. -/
def storeHas (s : TokenStore) (t : String) : Bool :=
  (storeLookup s t).isSome

/-- `Map.prototype.set`: replaces the binding in place when the key exists
(JS `Map` keys are unique, so replacing the first binding is replacing the
binding), otherwise appends a new binding at the end. -/
def mapSet (s : TokenStore) (k : String) (v : TokenData) : TokenStore :=
  match s with
  | [] => [(k, v)]
  | (k0, d0) :: rest => if k0 = k then (k, v) :: rest else (k0, d0) :: mapSet rest k v

/-- The hardcoded default token string (src/server.js line 22). -/
def defaultToken : String := "webhook-secret-2024"

/-- Metadata of the default token as initialized at process start. -/
def defaultTokenData (startIso : String) : TokenData :=
  { name := "Default Token", created := startIso, lastUsed := none, usageCount := 0 }

/-- The token store as initialized at process start. -/
def initialTokenStore (startIso : String) : TokenStore :=
  [(defaultToken, defaultTokenData startIso)]

/-! ## Requests and the Authorization Gate (src/server.js lines 33-60) -/

/-- The parts of an Express `req` that the gate and the ingestion handler
read.  `body` is added further below; this structure carries the credential
sources and the referer header. -/
structure ReqCreds where
  xWebhookToken : Option String
  authorization : Option String
  queryToken : Option String
deriving DecidableEq

/-- Line 34: `req.headers['x-webhook-token'] ||
req.headers['authorization']?.replace('Bearer ', '') || req.query.token`. -/
def extractCandidate (r : ReqCreds) : Option String :=
  jsOr r.xWebhookToken (jsOr (r.authorization.map removeBearer) r.queryToken)

/-- Outcome of `validateWebhookToken`: the two 401 failures, or success
carrying the validated token (attached as `req.webhookToken`). -/
inductive GateOutcome where
  | required
  | invalid
  | ok (token : String)
deriving DecidableEq

/-- HTTP status and response message of the two gate failures
(src/server.js lines 36-50). -/
def gateFailure : GateOutcome → Option (Nat × String)
  | .required => some (401, "Webhook token required")
  | .invalid => some (401, "Invalid webhook token")
  | .ok _ => none

/-- Successful-check side effect on a token's metadata (lines 52-56):
set `lastUsed` to the current time and increment `usageCount`. -/
def bumpUsage (d : TokenData) (now : String) : TokenData :=
  { d with lastUsed := some now, usageCount := d.usageCount + 1 }

/-- `validateWebhookToken` (src/server.js lines 33-60): extract the
candidate, reject falsy candidates with 401 "required", reject unknown
candidates with 401 "invalid", otherwise bump the token's usage metadata
and pass the token along. -/
def validateWebhookToken (r : ReqCreds) (store : TokenStore) (now : String) :
    GateOutcome × TokenStore :=
  match extractCandidate r with
  | none => (.required, store)
  | some t =>
    if t = "" then (.required, store)
    else
      match storeLookup store t with
      | some d => (.ok t, mapSet store t (bumpUsage d now))
      | none => (.invalid, store)

/-! ## JSON values and `JSON.stringify` -/

mutual
/-- A JSON value, as produced by the Express body parsers.  `obj` and `arr`
use the mutual list types below so that all recursion over `Js` is
structural (and hence kernel-reducible). -/
inductive Js where
  | null
  | bool (b : Bool)
  | num (n : Int)
  | str (s : String)
  | arr (es : JsList)
  | obj (fs : JsFields)
/-- A list of JSON values (array elements, in order). -/
inductive JsList where
  | nil
  | cons (hd : Js) (tl : JsList)
/-- The fields of a JSON object, in insertion order. -/
inductive JsFields where
  | nil
  | cons (k : String) (v : Js) (tl : JsFields)
end

/-- One character of `JSON.stringify` string escaping. -/
def escChar (c : Char) : List Char :=
  if c = '"' then ['\\', '"']
  else if c = '\\' then ['\\', '\\']
  else if c = '\n' then ['\\', 'n']
  else if c = '\t' then ['\\', 't']
  else if c = '\r' then ['\\', 'r']
  else if c = '\x08' then ['\\', 'b']
  else if c = '\x0c' then ['\\', 'f']
  else [c]

/-- `JSON.stringify` of a string: double quotes around the escaped body. -/
def quoteStr (s : String) : String :=
  String.mk ('"' :: ((s.toList.map escChar).flatten ++ ['"']))

mutual
/-- `JSON.stringify` (src/server.js line 178 serializes `req.body` with it). -/
def stringifyJs : Js → String
  | .null => "null"
  | .bool true => "true"
  | .bool false => "false"
  | .num n => toString n
  | .str s => quoteStr s
  | .arr es => "[" ++ String.intercalate "," (stringifyArr es) ++ "]"
  | .obj fs => "\x7b" ++ String.intercalate "," (stringifyFields fs) ++ "\x7d"
/-- Stringified array elements, in order. -/
def stringifyArr : JsList → List String
  | .nil => []
  | .cons e es => stringifyJs e :: stringifyArr es
/-- Stringified `"key":value` object fields, in order. -/
def stringifyFields : JsFields → List String
  | .nil => []
  | .cons k v fs => (quoteStr k ++ ":" ++ stringifyJs v) :: stringifyFields fs
end

/-! ## URL discovery (src/server.js lines 174-189)

The regex is `/https?:\/\/[^\s"<>]+/g` applied with `String.match`, which
returns all non-overlapping matches scanning left to right, each match
greedy. -/

/-- The ECMAScript `\s` class: ASCII whitespace, NBSP, Ogham space mark,
the U+2000-U+200A spaces, line/paragraph separators, narrow no-break space,
medium mathematical space, ideographic space, and the BOM. -/
def jsWhitespace (c : Char) : Bool :=
  c == ' ' || c == '\t' || c == '\n' || c == '\r' || c == '\x0b' || c == '\x0c' ||
    c == '\u00A0' || c == '\u1680' || ('\u2000' ≤ c && c ≤ '\u200A') ||
    c == '\u2028' || c == '\u2029' || c == '\u202F' || c == '\u205F' ||
    c == '\u3000' || c == '\uFEFF'

/-- A character that stops a URL match: the regex character class is
`[^\s"<>]`, so any `\s` character or `"` `<` `>` ends the match. -/
def urlStop (c : Char) : Bool :=
  jsWhitespace c || c == '"' || c == '<' || c == '>'

/-- The characters `https://`. -/
def httpsPre : List Char := ['h', 't', 't', 'p', 's', ':', '/', '/']

/-- The characters `http://`. -/
def httpPre : List Char := ['h', 't', 't', 'p', ':', '/', '/']

/-- Attempt to match the regex at the head of `l`.  On success, return the
matched token (scheme plus the maximal nonempty run of non-stop characters)
and the rest of the input after the match. -/
def urlMatchAt (l : List Char) : Option (List Char × List Char) :=
  if leadsWith httpsPre l then
    let rest := l.drop 8
    let run := rest.takeWhile (fun c => !urlStop c)
    if run.isEmpty then none else some (httpsPre ++ run, rest.drop run.length)
  else if leadsWith httpPre l then
    let rest := l.drop 7
    let run := rest.takeWhile (fun c => !urlStop c)
    if run.isEmpty then none else some (httpPre ++ run, rest.drop run.length)
  else none

/-- Global regex scan, fuelled for structural recursion: at each position,
either take the match and continue after it, or advance one character.  Each
step consumes at least one character, so fuel equal to the input length
(supplied by `scanUrls`) never runs out. -/
def scanUrlsF : Nat → List Char → List (List Char)
  | 0, _ => []
  | _, [] => []
  | fuel + 1, c :: rest =>
    match urlMatchAt (c :: rest) with
    | some (tok, rem) => tok :: scanUrlsF fuel rem
    | none => scanUrlsF fuel rest

/-- `bodyStr.match(urlRegex)`: all regex matches in first-occurrence order,
duplicates retained. -/
def scanUrls (s : String) : List String :=
  (scanUrlsF s.toList.length s.toList).map String.mk

/-- The parsed request body, following JS `typeof`:
`absent` covers `undefined`, `strB` a string body (typeof `string`),
`objB` an object or array body (typeof `object`). -/
inductive Body where
  | absent
  | strB (s : String)
  | objB (j : Js)

/-- Lines 174-189: serialize an object body (`req.body && typeof req.body
=== 'object'`; a JSON `null` body is falsy and skipped), scan it for URLs,
then append the referer header value if it is truthy
(`if (req.headers.referer)`, line 187: a present-but-empty header is
skipped). -/
def discoverUrls (body : Body) (referer : Option String) : List String :=
  (match body with
   | .objB .null => []
   | .objB j => scanUrls (stringifyJs j)
   | _ => []) ++
  (match referer with
   | some r => if r = "" then [] else [r]
   | none => [])

/-! ## Content extractor (src/server.js lines 63-136) -/

/-- Fields of the `html` extraction variant, produced by cheerio.  The
cheerio parser itself is an external library; it is passed to the extractor
as an abstract parameter of this type. -/
structure HtmlData where
  title : String
  description : String
  text : String
  links : List String
  images : List String

/-- A fetched HTTP response as axios presents it to the extractor: the
declared `content-type` header (absent allowed) and the (already decoded)
body. -/
structure Response where
  contentType : Option String
  data : Js

/-- Outcome of `axios.get`: a response, or a failure (timeout, DNS,
connection refused, non-2xx) carrying `error.message`. -/
abbrev FetchResult := Except String Response

/-- An `ExtractedContent` record: exactly one variant by construction. -/
inductive Extracted where
  | json (data : Js) (url : String) (ts : String)
  | html (h : HtmlData) (url : String) (ts : String)
  | text (content : Js) (url : String) (ts : String)
  | other (contentType : String) (content : Js) (url : String) (ts : String)
  | error (msg : String) (url : String) (ts : String)

/-- The `type` tag string of an extraction record. -/
def Extracted.kind : Extracted → String
  | .json _ _ _ => "json"
  | .html _ _ _ => "html"
  | .text _ _ _ => "text"
  | .other _ _ _ _ => "other"
  | .error _ _ _ => "error"

/-- The `url` field of an extraction record (present on every variant). -/
def Extracted.urlOf : Extracted → String
  | .json _ u _ => u
  | .html _ u _ => u
  | .text _ u _ => u
  | .other _ _ u _ => u
  | .error _ u _ => u

/-- The fixed browser-like `User-Agent` header value (line 68). -/
def userAgent : String :=
  "Mozilla/5.0 (Windows NT 10.0; Win64; x64) AppleWebKit/537.36 (KHTML, like Gecko) Chrome/91.0.4472.124 Safari/537.36"

/-- Headers attached to the outbound `axios.get` (lines 67-76): the fixed
user agent, plus — only when a token is provided — a bearer authorization
header and an `X-API-Key` header. -/
def buildOutboundHeaders : Option String → List (String × String)
  | none => [("User-Agent", userAgent)]
  | some t =>
      [("User-Agent", userAgent), ("Authorization", "Bearer " ++ t), ("X-API-Key", t)]

/-- `extractDataFromUrl` (lines 63-136).  `parse` abstracts cheerio;
`fetched` is the outcome of the single outbound GET; `ts` is the current
time.  The JS `try`/`catch` wrapping the whole body is modelled by the
`Except` case split: a failure becomes the `error` variant and nothing ever
escapes the function. -/
def extractDataFromUrl (parse : Js → HtmlData) (url : String)
    (fetched : FetchResult) (ts : String) : Extracted :=
  match fetched with
  | .error msg => .error msg url ts
  | .ok resp =>
    let ct := resp.contentType.getD ""
    if containsSub ct "application/json" then .json resp.data url ts
    else if containsSub ct "text/html" then .html (parse resp.data) url ts
    else if containsSub ct "text/plain" || containsSub ct "text/markdown" then
      .text resp.data url ts
    else .other ct resp.data url ts

/-! ## Ingestion handler (src/server.js lines 149-258 and 261-370) -/

/-- The fields of a stored webhook record that the embedded claims read. -/
structure WebhookRecord where
  id : String
  timestamp : String
  body : Body
  referer : Option String

/-- The two in-memory record stores (`webhookData`, `extractedData`). -/
structure IngestState where
  webhookData : List WebhookRecord
  extractedData : List Extracted

/-- The response body composed by the ingestion handler (lines 241-248):
`extractedResults` is `none` (JSON `null`) when no URL was discovered. -/
structure WebhookResponse where
  success : Bool
  webhookId : String
  urlsFound : Nat
  extractedResults : Option (List Extracted)

/-- The body of the `/webhook` handler after the gate (lines 149-258), also
the body of `/webhook-public` (lines 261-370) when `tokenCtx = none`:
build and append a record with id `Date.now().toString()`, discover URLs in
body and referer, extract each URL sequentially in discovery order
(forwarding `tokenCtx` to the fetch headers), append every result to the
extracted store, and respond with success. -/
def handleWebhook (parse : Js → HtmlData) (fetch : String → List (String × String) → FetchResult)
    (body : Body) (referer : Option String) (tokenCtx : Option String)
    (nowMs : Nat) (nowIso : String) (st : IngestState) :
    WebhookResponse × IngestState :=
  let record : WebhookRecord :=
    { id := Nat.repr nowMs, timestamp := nowIso, body := body, referer := referer }
  let urls := discoverUrls body referer
  let results := urls.map
    (fun u => extractDataFromUrl parse u (fetch u (buildOutboundHeaders tokenCtx)) nowIso)
  ({ success := true
     webhookId := record.id
     urlsFound := urls.length
     extractedResults := if results.length > 0 then some results else none },
   { webhookData := st.webhookData ++ [record]
     extractedData := st.extractedData ++ results })

/-- The outbound fetches (URL and attached headers) a `/webhook-public`
request gives rise to.  The request's credential sources are taken as
arguments to make the two-run statement of claim C6 expressible: the public
route calls `extractDataFromUrl(url)` with no token (line 310), so the
outbound headers never depend on `creds`. -/
def publicOutbound (_creds : ReqCreds) (body : Body) (referer : Option String) :
    List (String × List (String × String)) :=
  (discoverUrls body referer).map (fun u => (u, buildOutboundHeaders none))

/-! ## Batch extraction (src/server.js lines 508-589) -/

/-- The `urls` field of the `/extract-batch` request body, after the JS
checks `!urls || !Array.isArray(urls)`: a falsy or absent value, a truthy
non-array value, or an actual array. -/
inductive BatchField where
  | missing
  | notAnArray (j : Js)
  | urlList (urls : List String)

/-- Does the terminal-display block of the batch loop (src/server.js lines
528-556) throw?  It throws exactly on a `text`-variant result whose
`content` is not a string — `extractedContent.content.substring(0, 1000)`
(line 548) is then a TypeError.  (Reachable because axios JSON-parses any
parsable body regardless of its content type, so a `text/plain` response
whose body is `123` yields a `text` result with a numeric payload.)  The
`html` branch reads cheerio strings, and the other branches only
`JSON.stringify`, so no other branch can throw. -/
def displayFails : Extracted → Bool
  | .text (.str _) _ _ => false
  | .text _ _ _ => true
  | _ => false

/-- The `/extract-batch` handler after the gate (src/server.js lines
508-589): 400 and no extraction unless `urls` is an array; otherwise one
sequential extraction per URL, in order.  Each iteration runs in a
`try`/`catch`: the result is pushed to the response list and to the
extracted store, then the display block runs; if the display block throws
(`displayFails`), the `catch` (lines 558-565) pushes an additional
error-kind result — to the response list only — whose message is the
runtime TypeError text, abstracted here as `displayErr`. -/
def extractBatchRoute (parse : Js → HtmlData)
    (fetch : String → List (String × String) → FetchResult)
    (displayErr : Extracted → String)
    (field : BatchField) (tok : String) (ts : String) (st : List Extracted) :
    (Nat × Option (List Extracted)) × List Extracted :=
  match field with
  | .urlList urls =>
    let results := urls.flatMap (fun u =>
      let r := extractDataFromUrl parse u (fetch u (buildOutboundHeaders (some tok))) ts
      if displayFails r then [r, .error (displayErr r) u ts] else [r])
    ((200, some results),
     st ++ urls.map
       (fun u => extractDataFromUrl parse u (fetch u (buildOutboundHeaders (some tok))) ts))
  | _ => ((400, none), st)

/-! ## Token creation (src/server.js lines 399-416) -/

/-- Line 401: `'webhook-' + Date.now() + '-' +
Math.random().toString(36).substring(2, 15)`; `rand` abstracts the random
suffix. -/
def mkToken (nowMs : Nat) (rand : String) : String :=
  "webhook-" ++ Nat.repr nowMs ++ "-" ++ rand

/-- The `POST /tokens` handler (lines 399-416): build the token string from
the current time and the random suffix, register it with a zero usage count
(no freshness check against existing keys), and return it. -/
def createTokenRoute (store : TokenStore) (name : Option String)
    (nowMs : Nat) (nowIso rand : String) : TokenStore × String × String :=
  let newToken := mkToken nowMs rand
  let display := match name with
    | some n => if n = "" then "Generated Token" else n
    | none => "Generated Token"
  (mapSet store newToken
     { name := display, created := nowIso, lastUsed := none, usageCount := 0 },
   newToken, display)

/-! ## Store lemmas -/

theorem storeLookup_mapSet_self (s : TokenStore) (k : String) (v : TokenData) :
    storeLookup (mapSet s k v) k = some v := by
  induction s with
  | nil => simp [mapSet, storeLookup]
  | cons hd tl ih =>
    obtain ⟨k0, d0⟩ := hd
    by_cases h : k0 = k
    · subst h
      simp [mapSet, storeLookup]
    · simp [mapSet, storeLookup, h, ih]

theorem storeLookup_mapSet_ne (s : TokenStore) (k k' : String) (v : TokenData)
    (h : k' ≠ k) : storeLookup (mapSet s k v) k' = storeLookup s k' := by
  induction s with
  | nil => simp [mapSet, storeLookup, Ne.symm h]
  | cons hd tl ih =>
    obtain ⟨k0, d0⟩ := hd
    by_cases h0 : k0 = k
    · subst h0
      simp [mapSet, storeLookup, Ne.symm h]
    · by_cases h1 : k0 = k'
      · subst h1
        simp [mapSet, storeLookup, h0]
      · simp [mapSet, storeLookup, h0, h1, ih]

/-! ## Claim theorems: authorization gate -/

/-- Claim C1: the Authorization Gate succeeds if and only if the extracted
candidate token is non-empty and a key of the Token Store; on success it
increments exactly that token's usage counter by exactly 1 and sets its
last-used timestamp, leaving every other token untouched; a missing or
empty candidate yields the 401 "token required" error, a present-but-unknown
candidate yields the 401 "invalid token" error, and on either failure the
Token Store is unchanged. -/
theorem C1_gate_contract (r : ReqCreds) (store : TokenStore) (now : String) :
    (((validateWebhookToken r store now).1 = GateOutcome.required ↔
        (extractCandidate r = none ∨ extractCandidate r = some "")) ∧
     ((validateWebhookToken r store now).1 = GateOutcome.invalid ↔
        (∃ t, extractCandidate r = some t ∧ t ≠ "" ∧ storeHas store t = false)) ∧
     (∀ t, (validateWebhookToken r store now).1 = GateOutcome.ok t ↔
        (extractCandidate r = some t ∧ t ≠ "" ∧ storeHas store t = true))) ∧
    (∀ t d, (validateWebhookToken r store now).1 = GateOutcome.ok t →
        storeLookup store t = some d →
        storeLookup (validateWebhookToken r store now).2 t =
          some { d with lastUsed := some now, usageCount := d.usageCount + 1 } ∧
        (∀ k, k ≠ t →
          storeLookup (validateWebhookToken r store now).2 k = storeLookup store k)) ∧
    (((validateWebhookToken r store now).1 = GateOutcome.required ∨
      (validateWebhookToken r store now).1 = GateOutcome.invalid) →
        (validateWebhookToken r store now).2 = store) ∧
    gateFailure GateOutcome.required = some (401, "Webhook token required") ∧
    gateFailure GateOutcome.invalid = some (401, "Invalid webhook token") := by
  rcases hc : extractCandidate r with _ | t
  · refine ⟨⟨?_, ?_, ?_⟩, ?_, ?_, rfl, rfl⟩ <;>
      simp [validateWebhookToken, hc]
  · by_cases ht : t = ""
    · subst ht
      refine ⟨⟨?_, ?_, ?_⟩, ?_, ?_, rfl, rfl⟩ <;>
        simp [validateWebhookToken, hc]
    · rcases hl : storeLookup store t with _ | d
      · have hhas : storeHas store t = false := by
          simp [storeHas, hl]
        have hout : (validateWebhookToken r store now).1 = GateOutcome.invalid := by
          simp [validateWebhookToken, hc, ht, hl]
        have hst : (validateWebhookToken r store now).2 = store := by
          simp [validateWebhookToken, hc, ht, hl]
        refine ⟨⟨?_, ?_, ?_⟩, ?_, ?_, rfl, rfl⟩
        · rw [hout]
          constructor
          · intro h
            cases h
          · rintro (h | h)
            · cases h
            · cases h
              exact absurd rfl ht
        · rw [hout]
          exact iff_of_true rfl ⟨t, rfl, ht, hhas⟩
        · intro t'
          rw [hout]
          constructor
          · intro h
            cases h
          · rintro ⟨h1, -, h3⟩
            cases h1
            rw [hhas] at h3
            cases h3
        · intro t' d' hok _
          rw [hout] at hok
          cases hok
        · intro _
          exact hst
      · have hhas : storeHas store t = true := by
          simp [storeHas, hl]
        have hout : (validateWebhookToken r store now).1 = GateOutcome.ok t := by
          simp [validateWebhookToken, hc, ht, hl]
        have hst : (validateWebhookToken r store now).2 =
            mapSet store t (bumpUsage d now) := by
          simp [validateWebhookToken, hc, ht, hl]
        refine ⟨⟨?_, ?_, ?_⟩, ?_, ?_, rfl, rfl⟩
        · rw [hout]
          constructor
          · intro h
            cases h
          · rintro (h | h)
            · cases h
            · cases h
              exact absurd rfl ht
        · rw [hout]
          constructor
          · intro h
            cases h
          · rintro ⟨t', h1, -, h3⟩
            cases h1
            rw [hhas] at h3
            cases h3
        · intro t'
          rw [hout]
          constructor
          · intro h
            cases h
            exact ⟨rfl, ht, hhas⟩
          · rintro ⟨h1, -, -⟩
            cases h1
            rfl
        · intro t' d' hok hld
          rw [hout] at hok
          cases hok
          rw [hl] at hld
          cases hld
          rw [hst]
          refine ⟨?_, ?_⟩
          · rw [storeLookup_mapSet_self store t _]
            rfl
          · intro k hk
            exact storeLookup_mapSet_ne store t k _ hk
        · rintro (h | h) <;> (rw [hout] at h; cases h)

/-- Claim C1 witness: at a concrete request carrying the default token in the
query parameter, the gate succeeds and bumps exactly that token's counter. -/
theorem C1_gate_contract_witness :
    storeLookup
      (validateWebhookToken
        { xWebhookToken := none, authorization := none,
          queryToken := some defaultToken }
        (initialTokenStore "t0") "t1").2 defaultToken =
      some { name := "Default Token", created := "t0", lastUsed := some "t1",
             usageCount := 1 } :=
  ((C1_gate_contract
      { xWebhookToken := none, authorization := none, queryToken := some defaultToken }
      (initialTokenStore "t0") "t1").2.1 defaultToken (defaultTokenData "t0")
    (by decide) (by decide)).1

/-! ## Substring lemmas -/

theorem leadsWith_iff (p l : List Char) :
    leadsWith p l = true ↔ ∃ rest, l = p ++ rest := by
  induction p generalizing l with
  | nil =>
    simp [leadsWith]
  | cons c cs ih =>
    cases l with
    | nil => simp [leadsWith]
    | cons d ds =>
      constructor
      · intro h
        simp only [leadsWith, Bool.and_eq_true, beq_iff_eq] at h
        obtain ⟨hcd, h2⟩ := h
        subst hcd
        obtain ⟨rest, hrest⟩ := (ih ds).mp h2
        exact ⟨rest, by simp [hrest]⟩
      · rintro ⟨rest, hrest⟩
        rw [List.cons_append] at hrest
        injection hrest with h1 h2
        subst h1
        simp only [leadsWith, Bool.and_eq_true, beq_iff_eq]
        exact ⟨by simp, (ih ds).mpr ⟨rest, h2⟩⟩

theorem hasSub_iff (pat l : List Char) :
    hasSub pat l = true ↔ ∃ u v, l = u ++ pat ++ v := by
  induction l with
  | nil =>
    constructor
    · intro h
      obtain ⟨rest, hr⟩ := (leadsWith_iff pat []).mp h
      exact ⟨[], rest, by simp [hr]⟩
    · rintro ⟨u, v, huv⟩
      have hu : u = [] ∧ pat = [] ∧ v = [] := by
        simp only [List.append_assoc, List.nil_eq, List.append_eq_nil] at huv
        tauto
      obtain ⟨h1, h2, h3⟩ := hu
      subst h1; subst h2
      rfl
  | cons c cs ih =>
    constructor
    · intro h
      rcases Bool.or_eq_true_iff.mp ((by simpa [hasSub] using h :
          (leadsWith pat (c :: cs) || hasSub pat cs) = true)) with h1 | h1
      · obtain ⟨rest, hr⟩ := (leadsWith_iff pat _).mp h1
        exact ⟨[], rest, by simp [hr]⟩
      · obtain ⟨u, v, huv⟩ := ih.mp h1
        exact ⟨c :: u, v, by simp [huv]⟩
    · rintro ⟨u, v, huv⟩
      show (leadsWith pat (c :: cs) || hasSub pat cs) = true
      cases u with
      | nil =>
        have : leadsWith pat (c :: cs) = true :=
          (leadsWith_iff pat _).mpr ⟨v, by simpa using huv⟩
        simp [this]
      | cons x xs =>
        rw [List.cons_append, List.cons_append] at huv
        injection huv with h1 h2
        have : hasSub pat cs = true := ih.mpr ⟨xs, v, h2⟩
        simp [this]

theorem replaceFirstDel_of_no (pat l : List Char) (h : hasSub pat l = false) :
    replaceFirstDel pat l = l := by
  induction l with
  | nil => rfl
  | cons c cs ih =>
    have hor : (leadsWith pat (c :: cs) || hasSub pat cs) = false := by
      simpa [hasSub] using h
    obtain ⟨h1, h2⟩ := Bool.or_eq_false_iff.mp hor
    simp [replaceFirstDel, h1, ih h2]

theorem replaceFirstDel_first (pat l : List Char) (h : hasSub pat l = true) :
    ∃ u v, l = u ++ pat ++ v ∧ replaceFirstDel pat l = u ++ v ∧
      ∀ u' v', l = u' ++ pat ++ v' → u.length ≤ u'.length := by
  induction l with
  | nil =>
    obtain ⟨u, v, huv⟩ := (hasSub_iff pat []).mp h
    have hu : u = [] ∧ pat = [] ∧ v = [] := by
      simp only [List.append_assoc, List.nil_eq, List.append_eq_nil] at huv
      tauto
    obtain ⟨h1, h2, h3⟩ := hu
    subst h1; subst h2; subst h3
    exact ⟨[], [], rfl, rfl, fun _ _ _ => Nat.zero_le _⟩
  | cons c cs ih =>
    by_cases hlw : leadsWith pat (c :: cs) = true
    · obtain ⟨rest, hr⟩ := (leadsWith_iff pat _).mp hlw
      refine ⟨[], rest, by simp [hr], ?_, fun _ _ _ => Nat.zero_le _⟩
      simp only [replaceFirstDel]
      rw [if_pos hlw, hr, List.drop_left]
      rfl
    · have hcs : hasSub pat cs = true := by
        have hor : (leadsWith pat (c :: cs) || hasSub pat cs) = true := by
          simpa [hasSub] using h
        rcases Bool.or_eq_true_iff.mp hor with h1 | h1
        · exact absurd h1 hlw
        · exact h1
      obtain ⟨u, v, hsplit, hdel, hmin⟩ := ih hcs
      refine ⟨c :: u, v, by simp [hsplit], ?_, ?_⟩
      · simp [replaceFirstDel, hlw, hdel]
      · rintro u' v' hsplit'
        cases u' with
        | nil =>
          exact absurd ((leadsWith_iff pat _).mpr ⟨v', by simpa using hsplit'⟩) hlw
        | cons x xs =>
          rw [List.cons_append, List.cons_append] at hsplit'
          injection hsplit' with h1 h2
          simpa using Nat.succ_le_succ (hmin xs v' h2)

/-! ## Claim theorems: credential sources (C9, C10) -/

/-- Modelled from the wording of claim C9, not from the source (used only as
the foil of the C9 counterexample): the Authorization header is consulted
only in bearer-prefixed form, with exactly the leading `"Bearer "` prefix
removed; a non-bearer Authorization header is skipped. -/
def extractCandidateClaimC9 (r : ReqCreds) : Option String :=
  jsOr r.xWebhookToken
    (jsOr (r.authorization.bind
      (fun a => if leadsWith "Bearer ".toList a.toList
                then some (String.mk (a.toList.drop 7)) else none))
      r.queryToken)

/-- Claim C9 counterexample: for Authorization header `"xBearer y"` (not
bearer-prefixed) the code produces candidate `"xy"` — it deletes the first
`"Bearer "` occurrence anywhere and uses the header even without a bearer
prefix — while the claim's rule would skip the header and produce no
candidate; likewise a plain `"tok"` Authorization header is used as-is. -/
theorem C9_bearer_cex :
    extractCandidate { xWebhookToken := none, authorization := some "xBearer y",
                       queryToken := none } = some "xy" ∧
    extractCandidateClaimC9 { xWebhookToken := none, authorization := some "xBearer y",
                              queryToken := none } = none ∧
    extractCandidate { xWebhookToken := none, authorization := some "tok",
                       queryToken := none } = some "tok" ∧
    extractCandidateClaimC9 { xWebhookToken := none, authorization := some "tok",
                              queryToken := none } = none := by
  refine ⟨?_, ?_, ?_, ?_⟩ <;> decide

/-- Claim C9 (amended): the candidate is taken from the sources in order
with the first truthy value winning — the X-Webhook-Token header; the
Authorization header with the first occurrence of the substring `"Bearer "`
deleted (the header is used even when it has no bearer prefix, and the
deletion removes the leftmost occurrence anywhere, not only a leading
prefix); the `token` query parameter. -/
theorem C9_candidate_amended (r : ReqCreds) :
    (truthy r.xWebhookToken = true → extractCandidate r = r.xWebhookToken) ∧
    (truthy r.xWebhookToken = false →
      truthy (r.authorization.map removeBearer) = true →
      extractCandidate r = r.authorization.map removeBearer) ∧
    (truthy r.xWebhookToken = false →
      truthy (r.authorization.map removeBearer) = false →
      extractCandidate r = r.queryToken) ∧
    (∀ s : String, hasSub "Bearer ".toList s.toList = false → removeBearer s = s) ∧
    (∀ s : String, hasSub "Bearer ".toList s.toList = true →
      ∃ u v, s.toList = u ++ "Bearer ".toList ++ v ∧
        removeBearer s = String.mk (u ++ v) ∧
        ∀ u' v', s.toList = u' ++ "Bearer ".toList ++ v' → u.length ≤ u'.length) := by
  refine ⟨?_, ?_, ?_, ?_, ?_⟩
  · intro h1
    simp [extractCandidate, jsOr, h1]
  · intro h1 h2
    simp [extractCandidate, jsOr, h1, h2]
  · intro h1 h2
    simp [extractCandidate, jsOr, h1, h2]
  · intro s hs
    show String.mk (replaceFirstDel "Bearer ".toList s.toList) = s
    rw [replaceFirstDel_of_no _ _ hs]
    obtain ⟨l⟩ := s
    rfl
  · intro s hs
    obtain ⟨u, v, hsplit, hdel, hmin⟩ := replaceFirstDel_first "Bearer ".toList s.toList hs
    exact ⟨u, v, hsplit, by unfold removeBearer; rw [hdel], hmin⟩

/-- Claim C9 witness: with a truthy X-Webhook-Token header, the other
sources are ignored; and `removeBearer` deletes the leftmost `"Bearer "`. -/
theorem C9_candidate_amended_witness :
    extractCandidate { xWebhookToken := some "tok", authorization := some "Bearer abc",
                       queryToken := some "q" } = some "tok" :=
  (C9_candidate_amended
    { xWebhookToken := some "tok", authorization := some "Bearer abc",
      queryToken := some "q" }).1 (by decide)

/-- Claim C10: a credential source holding the empty string is skipped in
favour of the next source; the empty string is never accepted as a
credential; and when every source is absent or empty the gate fails with
the "token required" outcome and an unchanged store. -/
theorem C10_empty_sources_skipped (r : ReqCreds) (store : TokenStore) (now : String) :
    (truthy r.xWebhookToken = false →
      extractCandidate r = jsOr (r.authorization.map removeBearer) r.queryToken) ∧
    (truthy r.xWebhookToken = false →
      truthy (r.authorization.map removeBearer) = false →
      extractCandidate r = r.queryToken) ∧
    (∀ t, (validateWebhookToken r store now).1 = GateOutcome.ok t → t ≠ "") ∧
    ((truthy r.xWebhookToken = false ∧
      truthy (r.authorization.map removeBearer) = false ∧
      truthy r.queryToken = false) →
      (validateWebhookToken r store now).1 = GateOutcome.required ∧
      (validateWebhookToken r store now).2 = store) := by
  refine ⟨?_, ?_, ?_, ?_⟩
  · intro h1
    simp [extractCandidate, jsOr, h1]
  · intro h1 h2
    simp [extractCandidate, jsOr, h1, h2]
  · intro t hok hteq
    subst hteq
    rcases hc : extractCandidate r with _ | t'
    · simp [validateWebhookToken, hc] at hok
    · by_cases ht' : t' = ""
      · subst ht'
        simp [validateWebhookToken, hc] at hok
      · rcases hl : storeLookup store t' with _ | d
        · simp [validateWebhookToken, hc, ht', hl] at hok
        · simp [validateWebhookToken, hc, ht', hl] at hok
  · rintro ⟨h1, h2, h3⟩
    have hc : extractCandidate r = r.queryToken := by
      simp [extractCandidate, jsOr, h1, h2]
    rcases hq : r.queryToken with _ | s
    · rw [hq] at hc
      exact ⟨by simp [validateWebhookToken, hc], by simp [validateWebhookToken, hc]⟩
    · have hs : s = "" := by
        rw [hq] at h3
        simpa [truthy] using h3
      subst hs
      rw [hq] at hc
      exact ⟨by simp [validateWebhookToken, hc], by simp [validateWebhookToken, hc]⟩

/-- Claim C10 witness: an empty X-Webhook-Token header together with a valid
query token yields that token as the candidate, and all-empty sources yield
the "required" failure. -/
theorem C10_empty_sources_skipped_witness :
    extractCandidate { xWebhookToken := some "", authorization := none,
                       queryToken := some defaultToken } = some defaultToken ∧
    (validateWebhookToken
      { xWebhookToken := some "", authorization := some "Bearer ",
        queryToken := some "" } (initialTokenStore "t0") "t1").1 =
      GateOutcome.required :=
  ⟨((C10_empty_sources_skipped
      { xWebhookToken := some "", authorization := none,
        queryToken := some defaultToken } (initialTokenStore "t0") "t1").2.1
      (by decide) (by decide)).trans (by decide),
   ((C10_empty_sources_skipped
      { xWebhookToken := some "", authorization := some "Bearer ",
        queryToken := some "" } (initialTokenStore "t0") "t1").2.2.2
      ⟨by decide, by decide, by decide⟩).1⟩

/-! ## URL scanner lemmas -/

theorem urlMatchAt_shape {l tok rem : List Char} (h : urlMatchAt l = some (tok, rem)) :
    ∃ run, run ≠ [] ∧ (∀ c ∈ run, urlStop c = false) ∧
      (tok = httpsPre ++ run ∨ tok = httpPre ++ run) := by
  simp only [urlMatchAt] at h
  split at h
  · split at h
    · exact Option.noConfusion h
    · rename_i hne
      injection h with h'
      cases h'
      refine ⟨(l.drop 8).takeWhile (fun c => !urlStop c), ?_, ?_, Or.inl rfl⟩
      · intro hnil
        rw [hnil] at hne
        exact hne rfl
      · intro c hc
        have := List.mem_takeWhile_imp hc
        simpa using this
  · split at h
    · split at h
      · exact Option.noConfusion h
      · rename_i hne
        injection h with h'
        cases h'
        refine ⟨(l.drop 7).takeWhile (fun c => !urlStop c), ?_, ?_, Or.inr rfl⟩
        · intro hnil
          rw [hnil] at hne
          exact hne rfl
        · intro c hc
          have := List.mem_takeWhile_imp hc
          simpa using this
    · exact Option.noConfusion h

theorem scanUrlsF_shape (fuel : Nat) :
    ∀ (l tok : List Char), tok ∈ scanUrlsF fuel l →
      ∃ run, run ≠ [] ∧ (∀ c ∈ run, urlStop c = false) ∧
        (tok = httpsPre ++ run ∨ tok = httpPre ++ run) := by
  induction fuel with
  | zero =>
    intro l tok h
    simp [scanUrlsF] at h
  | succ f ih =>
    intro l tok h
    cases l with
    | nil => simp [scanUrlsF] at h
    | cons c rest =>
      rcases hm : urlMatchAt (c :: rest) with _ | ⟨tok0, rem⟩
      · simp only [scanUrlsF, hm] at h
        exact ih rest tok h
      · simp only [scanUrlsF, hm] at h
        rcases List.mem_cons.mp h with h1 | h1
        · subst h1
          exact urlMatchAt_shape hm
        · exact ih rem tok h1

/-! ## Claim theorem: URL discovery (C4) -/

/-- Claim C4: URL discovery serializes the body and scans it; every returned
URL starts with `http://` or `https://` followed by a nonempty run free of
whitespace, quote and angle characters; a present referer header value is
appended at the end even if already present; the result is empty when the
body is absent or not a structured value and no referer exists; and on the
spec's example body the two URLs come back in first-occurrence order, with
duplicates retained on a duplicate-URL body.  (A present-but-empty referer
header is falsy in JS and therefore skipped, line 187.) -/
theorem C4_url_discovery :
    (∀ (s u : String), u ∈ scanUrls s →
      ∃ run, run ≠ [] ∧ (∀ c ∈ run, urlStop c = false) ∧
        (u.toList = httpsPre ++ run ∨ u.toList = httpPre ++ run)) ∧
    (∀ (body : Body) (ref : String), ref ≠ "" →
      discoverUrls body (some ref) = discoverUrls body none ++ [ref]) ∧
    (∀ body : Body, discoverUrls body (some "") = discoverUrls body none) ∧
    (discoverUrls .absent none = [] ∧ ∀ s : String, discoverUrls (.strB s) none = []) ∧
    discoverUrls
      (.objB (.obj (.cons "a" (.str "https://x.test/1")
        (.cons "b" (.str "see https://x.test/2 too") .nil)))) none =
      ["https://x.test/1", "https://x.test/2"] ∧
    discoverUrls
      (.objB (.obj (.cons "a" (.str "https://d.test/u")
        (.cons "b" (.str "https://d.test/u") .nil)))) none =
      ["https://d.test/u", "https://d.test/u"] := by
  refine ⟨?_, ?_, ?_, ⟨rfl, fun _ => rfl⟩, by decide, by decide⟩
  · intro s u hu
    simp only [scanUrls, List.mem_map] at hu
    obtain ⟨tok, htok, hmk⟩ := hu
    subst hmk
    exact scanUrlsF_shape _ _ _ htok
  · intro body ref href
    cases body with
    | absent => simp [discoverUrls, href]
    | strB s => simp [discoverUrls, href]
    | objB j => cases j <;> simp [discoverUrls, href]
  · intro body
    cases body with
    | absent => rfl
    | strB s => rfl
    | objB j => cases j <;> simp [discoverUrls]

/-- Claim C4 witness: the URL scanned out of a concrete serialized body is
`https://` followed by a nonempty run free of stop characters. -/
theorem C4_url_discovery_witness :
    ∃ run, run ≠ [] ∧ (∀ c ∈ run, urlStop c = false) ∧
      (("https://x.test/1" : String).toList = httpsPre ++ run ∨
       ("https://x.test/1" : String).toList = httpPre ++ run) :=
  C4_url_discovery.1 "see https://x.test/1 ok" "https://x.test/1" (by decide)

/-! ## Claim theorems: content extractor (C2, C3) -/

/-- Every extraction result carries the URL it was produced from. -/
theorem urlOf_extract (parse : Js → HtmlData) (u : String) (fetched : FetchResult)
    (ts : String) : (extractDataFromUrl parse u fetched ts).urlOf = u := by
  cases fetched with
  | error msg => rfl
  | ok resp =>
    simp only [extractDataFromUrl]
    split_ifs <;> rfl

/-- Claim C2: the Content Extractor always returns a value (it is a total
function of the fetch outcome) and converts any fetch failure into an
`error` result carrying the failure's message; during ingestion every
extraction result — error results included — is appended to the Extracted
Store, and the ingestion response still reports success. -/
theorem C2_extractor_total (parse : Js → HtmlData) (url msg ts : String) :
    extractDataFromUrl parse url (Except.error msg) ts = Extracted.error msg url ts ∧
    ∀ (fetch : String → List (String × String) → FetchResult) (body : Body)
      (referer tokenCtx : Option String) (nowMs : Nat) (nowIso : String)
      (st : IngestState),
      (handleWebhook parse fetch body referer tokenCtx nowMs nowIso st).1.success = true ∧
      ∀ u ∈ discoverUrls body referer,
        extractDataFromUrl parse u (fetch u (buildOutboundHeaders tokenCtx)) nowIso ∈
          (handleWebhook parse fetch body referer tokenCtx nowMs nowIso st).2.extractedData := by
  refine ⟨rfl, ?_⟩
  intro fetch body referer tokenCtx nowMs nowIso st
  refine ⟨rfl, ?_⟩
  intro u hu
  exact List.mem_append_right _ (List.mem_map_of_mem _ hu)

/-- Claim C2 witness: a timed-out fetch of a URL discovered in a concrete
body yields an error record that is present in the final Extracted Store. -/
theorem C2_extractor_total_witness :
    extractDataFromUrl (fun _ => ⟨"", "", "", [], []⟩) "https://x.test/a"
        ((fun (_ : String) (_ : List (String × String)) =>
          (Except.error "timeout of 10000ms exceeded" : FetchResult)) "https://x.test/a"
          (buildOutboundHeaders none)) "ts" ∈
      (handleWebhook (fun _ => ⟨"", "", "", [], []⟩)
        (fun _ _ => Except.error "timeout of 10000ms exceeded")
        (.objB (.obj (.cons "u" (.str "https://x.test/a") .nil))) none none
        5 "ts" ⟨[], []⟩).2.extractedData :=
  ((C2_extractor_total (fun _ => ⟨"", "", "", [], []⟩) "https://x.test/a" "m" "ts").2
    (fun _ _ => Except.error "timeout of 10000ms exceeded")
    (.objB (.obj (.cons "u" (.str "https://x.test/a") .nil))) none none
    5 "ts" ⟨[], []⟩).2 "https://x.test/a" (by decide)

/-- Claim C3: the extractor classifies a fetched response solely by
substring matching on the declared content-type header, in the precedence
json, html, text (plain or markdown), other; the `other` variant carries the
literal declared-type string and the raw body; an absent content-type header
behaves as the empty declared type and lands in `other`. -/
theorem C3_classification (parse : Js → HtmlData) (url ts : String) (resp : Response) :
    (containsSub (resp.contentType.getD "") "application/json" = true →
      extractDataFromUrl parse url (Except.ok resp) ts =
        Extracted.json resp.data url ts) ∧
    (containsSub (resp.contentType.getD "") "application/json" = false →
      containsSub (resp.contentType.getD "") "text/html" = true →
      extractDataFromUrl parse url (Except.ok resp) ts =
        Extracted.html (parse resp.data) url ts) ∧
    (containsSub (resp.contentType.getD "") "application/json" = false →
      containsSub (resp.contentType.getD "") "text/html" = false →
      (containsSub (resp.contentType.getD "") "text/plain" = true ∨
       containsSub (resp.contentType.getD "") "text/markdown" = true) →
      extractDataFromUrl parse url (Except.ok resp) ts =
        Extracted.text resp.data url ts) ∧
    (containsSub (resp.contentType.getD "") "application/json" = false →
      containsSub (resp.contentType.getD "") "text/html" = false →
      containsSub (resp.contentType.getD "") "text/plain" = false →
      containsSub (resp.contentType.getD "") "text/markdown" = false →
      extractDataFromUrl parse url (Except.ok resp) ts =
        Extracted.other (resp.contentType.getD "") resp.data url ts) ∧
    (resp.contentType = none →
      extractDataFromUrl parse url (Except.ok resp) ts =
        Extracted.other "" resp.data url ts) := by
  refine ⟨?_, ?_, ?_, ?_, ?_⟩
  · intro h1
    simp [extractDataFromUrl, h1]
  · intro h1 h2
    simp [extractDataFromUrl, h1, h2]
  · intro h1 h2 h3
    rcases h3 with h3 | h3 <;> simp [extractDataFromUrl, h1, h2, h3]
  · intro h1 h2 h3 h4
    simp [extractDataFromUrl, h1, h2, h3, h4]
  · intro h
    obtain ⟨ct, d⟩ := resp
    simp only at h
    subst h
    rfl

/-- Claim C3 witness: a response declared `application/json; charset=utf-8`
is classified as the `json` variant with the decoded body verbatim. -/
theorem C3_classification_witness :
    extractDataFromUrl (fun _ => ⟨"", "", "", [], []⟩) "https://e.test"
      (Except.ok ⟨some "application/json; charset=utf-8", .num 1⟩) "ts" =
      Extracted.json (.num 1) "https://e.test" "ts" :=
  (C3_classification (fun _ => ⟨"", "", "", [], []⟩) "https://e.test" "ts"
    ⟨some "application/json; charset=utf-8", .num 1⟩).1 (by decide)

/-! ## Claim theorems: batch extraction (C5) -/

/-- A `flatMap` whose groups are all singletons is a `map`. -/
theorem flatMap_eq_map {α β : Type} (g : α → List β) (f : α → β) (l : List α)
    (h : ∀ a ∈ l, g a = [f a]) : l.flatMap g = l.map f := by
  induction l with
  | nil => rfl
  | cons a as ih =>
    simp only [List.flatMap_cons, List.map_cons, h a (List.mem_cons_self a as),
      ih (fun b hb => h b (List.mem_cons_of_mem a hb))]
    rfl

/-- Claim C5 counterexample: one batch URL serving `text/plain` with the
body `123` (axios JSON-parses it to a number) makes the display stage throw
after the result was already pushed, so the per-URL catch pushes a second,
error-kind result: the response carries 2 results for 1 supplied URL,
refuting "exactly N extraction results". -/
theorem C5_batch_cex :
    (((extractBatchRoute (fun _ => ⟨"", "", "", [], []⟩)
        (fun _ _ => Except.ok ⟨some "text/plain", .num 123⟩)
        (fun _ => "extractedContent.content.substring is not a function")
        (.urlList ["https://t.test/"]) "tok" "ts" []).1.2.getD []).length = 2) ∧
    (["https://t.test/"] : List String).length = 1 :=
  ⟨rfl, rfl⟩

/-- Claim C5 (amended): an authorized batch request over a list of N URLs
returns a 200 whose results list the input URLs in input order, each URL
contributing its extraction result followed — only when that result makes
the display stage throw (a `text` result with a non-string payload) — by one
additional error result; whenever no display failure occurs (in particular
for any mix of fetch failures and successes) the response carries exactly N
results in input order; the store receives exactly one result per URL; a
missing or non-array `urls` field yields a 400 with no extraction performed
and the store unchanged. -/
theorem C5_batch_amended (parse : Js → HtmlData)
    (fetch : String → List (String × String) → FetchResult)
    (displayErr : Extracted → String) (tok ts : String) (st : List Extracted) :
    (∀ urls : List String,
      (extractBatchRoute parse fetch displayErr (.urlList urls) tok ts st).1.1 = 200 ∧
      ∃ results,
        (extractBatchRoute parse fetch displayErr (.urlList urls) tok ts st).1.2 =
          some results ∧
        results.map Extracted.urlOf = urls.flatMap (fun u =>
          if displayFails
              (extractDataFromUrl parse u (fetch u (buildOutboundHeaders (some tok))) ts) =
              true
          then [u, u] else [u]) ∧
        ((∀ u ∈ urls,
            displayFails
              (extractDataFromUrl parse u (fetch u (buildOutboundHeaders (some tok))) ts) =
              false) →
          results.length = urls.length ∧ results.map Extracted.urlOf = urls) ∧
        (extractBatchRoute parse fetch displayErr (.urlList urls) tok ts st).2 =
          st ++ urls.map
            (fun u => extractDataFromUrl parse u (fetch u (buildOutboundHeaders (some tok))) ts) ∧
        (urls.map
          (fun u => extractDataFromUrl parse u (fetch u (buildOutboundHeaders (some tok))) ts)).length =
          urls.length) ∧
    extractBatchRoute parse fetch displayErr .missing tok ts st = ((400, none), st) ∧
    (∀ j, extractBatchRoute parse fetch displayErr (.notAnArray j) tok ts st =
      ((400, none), st)) := by
  refine ⟨?_, rfl, fun _ => rfl⟩
  intro urls
  refine ⟨rfl,
    urls.flatMap (fun u =>
      let r := extractDataFromUrl parse u (fetch u (buildOutboundHeaders (some tok))) ts
      if displayFails r then [r, .error (displayErr r) u ts] else [r]),
    rfl, ?_, ?_, rfl, List.length_map _ _⟩
  · rw [List.map_flatMap]
    have hpt : (fun u =>
        ((let r := extractDataFromUrl parse u (fetch u (buildOutboundHeaders (some tok))) ts
          if displayFails r then [r, .error (displayErr r) u ts] else [r]).map
          Extracted.urlOf)) = (fun u =>
        if displayFails
            (extractDataFromUrl parse u (fetch u (buildOutboundHeaders (some tok))) ts) =
            true
        then [u, u] else [u]) := by
      funext u
      have herr : ∀ (m u2 t2 : String), (Extracted.error m u2 t2).urlOf = u2 :=
        fun _ _ _ => rfl
      by_cases h :
          displayFails
            (extractDataFromUrl parse u (fetch u (buildOutboundHeaders (some tok))) ts) <;>
        simp [h, urlOf_extract, herr]
    rw [hpt]
  · intro hall
    have hres : urls.flatMap (fun u =>
        let r := extractDataFromUrl parse u (fetch u (buildOutboundHeaders (some tok))) ts
        if displayFails r then [r, .error (displayErr r) u ts] else [r]) =
        urls.map
          (fun u => extractDataFromUrl parse u (fetch u (buildOutboundHeaders (some tok))) ts) := by
      apply flatMap_eq_map
      intro u hu
      simp [hall u hu]
    rw [hres]
    refine ⟨List.length_map _ _, ?_⟩
    rw [List.map_map]
    have : (Extracted.urlOf ∘
        fun u => extractDataFromUrl parse u (fetch u (buildOutboundHeaders (some tok))) ts) =
        fun u => u := by
      funext u
      exact urlOf_extract parse u _ ts
    rw [this, List.map_id']

/-- Claim C5 witness: a two-URL batch where the first fetch fails and the
second succeeds (neither result trips the display stage) returns exactly two
results in input order. -/
theorem C5_batch_amended_witness :
    ∃ results,
      (extractBatchRoute (fun _ => ⟨"", "", "", [], []⟩)
        (fun u _ => if u = "https://u1.test/" then Except.error "connect ECONNREFUSED"
                    else Except.ok ⟨some "application/json", .num 1⟩)
        (fun _ => "m")
        (.urlList ["https://u1.test/", "https://u2.test/"]) "tok" "ts" []).1.2 =
        some results ∧
      results.length = ["https://u1.test/", "https://u2.test/"].length ∧
      results.map Extracted.urlOf = ["https://u1.test/", "https://u2.test/"] := by
  obtain ⟨results, hA, -, hC, -, -⟩ :=
    ((C5_batch_amended (fun _ => ⟨"", "", "", [], []⟩)
      (fun u _ => if u = "https://u1.test/" then Except.error "connect ECONNREFUSED"
                  else Except.ok ⟨some "application/json", .num 1⟩)
      (fun _ => "m") "tok" "ts" []).1 ["https://u1.test/", "https://u2.test/"]).2
  exact ⟨results, hA, (hC (by decide)).1, (hC (by decide)).2⟩

/-! ## Claim theorem: public route never forwards a credential (C6) -/

/-- Claim C6: the outbound fetches of a `/webhook-public` request are
identical for any two credential assignments (two-run noninterference), and
their headers consist of exactly the fixed user agent — no Authorization and
no X-API-Key header is ever attached. -/
theorem C6_public_no_credential (c1 c2 : ReqCreds) (body : Body)
    (referer : Option String) :
    publicOutbound c1 body referer = publicOutbound c2 body referer ∧
    ∀ p ∈ publicOutbound c1 body referer,
      p.2 = [("User-Agent", userAgent)] ∧
      ∀ h ∈ p.2, h.1 ≠ "Authorization" ∧ h.1 ≠ "X-API-Key" := by
  refine ⟨rfl, ?_⟩
  intro p hp
  simp only [publicOutbound, List.mem_map] at hp
  obtain ⟨u, -, hpu⟩ := hp
  subst hpu
  refine ⟨rfl, ?_⟩
  intro h hh
  rcases List.mem_singleton.mp hh with rfl
  exact ⟨by decide, by decide⟩

/-- Claim C6 witness: a public request whose caller supplies a token in
every credential source still fetches its discovered URL with only the
fixed user-agent header. -/
theorem C6_public_no_credential_witness :
    ("https://x.test/a", buildOutboundHeaders none).2 = [("User-Agent", userAgent)] :=
  (((C6_public_no_credential
      { xWebhookToken := some "tok", authorization := some "Bearer tok",
        queryToken := some "tok" }
      { xWebhookToken := none, authorization := none, queryToken := none }
      (.objB (.obj (.cons "u" (.str "https://x.test/a") .nil))) none).2
    ("https://x.test/a", buildOutboundHeaders none)) (by decide)).1

/-! ## Ingestion traces and record ids (C7)

Record ids are `Date.now().toString()` (src/server.js lines 152 and 264),
i.e. the decimal string of the current clock in milliseconds.  A process
run is modelled as a list of accepted ingestion requests, each with the
clock value observed at its handler. -/

/-- One accepted ingestion request together with the clock values the
handler observes. -/
structure IngestInput where
  body : Body
  referer : Option String
  tokenCtx : Option String
  nowMs : Nat
  nowIso : String

/-- Run a sequence of accepted ingestion requests through the handler,
threading the stores. -/
def ingestAll (parse : Js → HtmlData)
    (fetch : String → List (String × String) → FetchResult) :
    List IngestInput → IngestState → IngestState
  | [], st => st
  | it :: rest, st =>
      ingestAll parse fetch rest
        (handleWebhook parse fetch it.body it.referer it.tokenCtx it.nowMs it.nowIso st).2

/-- The ids accumulated by a run: one per accepted request, each the decimal
string of that request's clock value. -/
theorem ingestAll_ids (parse : Js → HtmlData)
    (fetch : String → List (String × String) → FetchResult)
    (items : List IngestInput) :
    ∀ st : IngestState,
      ((ingestAll parse fetch items st).webhookData).map WebhookRecord.id =
        st.webhookData.map WebhookRecord.id ++
          items.map (fun it => Nat.repr it.nowMs) := by
  induction items with
  | nil =>
    intro st
    simp [ingestAll]
  | cons it rest ih =>
    intro st
    simp only [ingestAll, ih, handleWebhook, List.map_cons]
    simp [List.map_append]

/-! ## Decimal representation: `Nat.repr` is injective -/

/-- Decode a list of decimal digit characters back to a number. -/
def decDigits (l : List Char) : Nat :=
  l.foldl (fun a c => a * 10 + (c.toNat - 48)) 0

theorem digitVal_digitChar (d : Nat) (h : d < 10) :
    (Nat.digitChar d).toNat - 48 = d := by
  interval_cases d <;> rfl

theorem toDigitsCore_append (b f n : Nat) (ds : List Char) :
    Nat.toDigitsCore b f n ds = Nat.toDigitsCore b f n [] ++ ds := by
  induction f generalizing n ds with
  | zero => simp [Nat.toDigitsCore]
  | succ f ih =>
    simp only [Nat.toDigitsCore]
    by_cases h : n / b = 0
    · simp [h]
    · rw [if_neg h, if_neg h, ih (n / b) (Nat.digitChar (n % b) :: ds),
        ih (n / b) [Nat.digitChar (n % b)]]
      simp

theorem decDigits_append_digit (l : List Char) (c : Char) :
    decDigits (l ++ [c]) = decDigits l * 10 + (c.toNat - 48) := by
  simp [decDigits, List.foldl_append]

theorem toDigitsCore_decode (f : Nat) :
    ∀ n : Nat, n < f → decDigits (Nat.toDigitsCore 10 f n []) = n := by
  induction f with
  | zero =>
    intro n h
    exact absurd h (Nat.not_lt_zero n)
  | succ f ih =>
    intro n h
    simp only [Nat.toDigitsCore]
    by_cases h0 : n / 10 = 0
    · rw [if_pos h0]
      have hn : n < 10 := by
        by_contra hge
        push_neg at hge
        have := Nat.div_pos hge (by norm_num)
        omega
      simp [decDigits, Nat.mod_eq_of_lt hn, digitVal_digitChar n hn]
    · rw [if_neg h0, toDigitsCore_append, decDigits_append_digit]
      have hpos : 0 < n := by
        rcases Nat.eq_zero_or_pos n with h1 | h1
        · subst h1
          simp at h0
        · exact h1
      have h1 : n / 10 < f := by
        have hlt : n / 10 < n := Nat.div_lt_self hpos (by norm_num)
        omega
      rw [ih (n / 10) h1, digitVal_digitChar (n % 10) (Nat.mod_lt n (by norm_num))]
      omega

theorem natRepr_injective : Function.Injective Nat.repr := by
  intro m n h
  have hmk : Nat.toDigits 10 m = Nat.toDigits 10 n := by
    have := congrArg String.toList h
    simpa [Nat.repr, List.asString] using this
  have hm : decDigits (Nat.toDigits 10 m) = m :=
    toDigitsCore_decode (m + 1) m (Nat.lt_succ_self m)
  have hn : decDigits (Nat.toDigits 10 n) = n :=
    toDigitsCore_decode (n + 1) n (Nat.lt_succ_self n)
  rw [← hm, ← hn, hmk]

/-! ## Claim theorems: record ids (C7) -/

/-- Claim C7 counterexample: two ingestion requests accepted within the same
millisecond (clock value 5 twice) both receive id `"5"` — the ids of a
process lifetime are neither collision-free nor strictly increasing. -/
theorem C7_id_collision_cex :
    ((ingestAll (fun _ => ⟨"", "", "", [], []⟩) (fun _ _ => Except.error "x")
        [⟨Body.absent, none, none, 5, "t"⟩, ⟨Body.absent, none, none, 5, "t"⟩]
        ⟨[], []⟩).webhookData).map WebhookRecord.id = ["5", "5"] ∧
    ¬ List.Pairwise (fun a b => a ≠ b)
        (((ingestAll (fun _ => ⟨"", "", "", [], []⟩) (fun _ _ => Except.error "x")
          [⟨Body.absent, none, none, 5, "t"⟩, ⟨Body.absent, none, none, 5, "t"⟩]
          ⟨[], []⟩).webhookData).map WebhookRecord.id) := by
  constructor
  · rfl
  · intro hpw
    have h12 : ("5" : String) ≠ "5" := by
      have := hpw
      rw [(by rfl :
        ((ingestAll (fun _ => ⟨"", "", "", [], []⟩) (fun _ _ => Except.error "x")
          [⟨Body.absent, none, none, 5, "t"⟩, ⟨Body.absent, none, none, 5, "t"⟩]
          ⟨[], []⟩).webhookData).map WebhookRecord.id = ["5", "5"])] at this
      exact List.rel_of_pairwise_cons this (List.mem_singleton.mpr rfl)
    exact h12 rfl

/-- Claim C7 (amended): each record's id is the decimal string of the
millisecond clock value at its creation; for any run whose accepted
requests observe strictly increasing clock values the ids are pairwise
distinct, while requests sharing a millisecond share an id. -/
theorem C7_ids_amended (parse : Js → HtmlData)
    (fetch : String → List (String × String) → FetchResult)
    (items : List IngestInput) (st0 : IngestState) :
    ((ingestAll parse fetch items st0).webhookData).map WebhookRecord.id =
      st0.webhookData.map WebhookRecord.id ++
        items.map (fun it => Nat.repr it.nowMs) ∧
    (st0.webhookData = [] →
      List.Pairwise (· < ·) (items.map (fun it => it.nowMs)) →
      List.Pairwise (fun a b => a ≠ b)
        (((ingestAll parse fetch items st0).webhookData).map WebhookRecord.id)) := by
  refine ⟨ingestAll_ids parse fetch items st0, ?_⟩
  intro h0 hmono
  rw [ingestAll_ids parse fetch items st0, h0]
  simp only [List.map_nil, List.nil_append]
  rw [List.pairwise_map] at hmono ⊢
  exact hmono.imp (fun hlt => fun heq => absurd (natRepr_injective heq) (Nat.ne_of_lt hlt))

/-- Claim C7 witness: a run with strictly increasing clock values 5 and 6
produces the distinct ids `"5"` and `"6"`. -/
theorem C7_ids_amended_witness :
    List.Pairwise (fun a b => a ≠ b)
      (((ingestAll (fun _ => ⟨"", "", "", [], []⟩) (fun _ _ => Except.error "x")
        [⟨Body.absent, none, none, 5, "t"⟩, ⟨Body.absent, none, none, 6, "t"⟩]
        ⟨[], []⟩).webhookData).map WebhookRecord.id) :=
  (C7_ids_amended (fun _ => ⟨"", "", "", [], []⟩) (fun _ _ => Except.error "x")
    [⟨Body.absent, none, none, 5, "t"⟩, ⟨Body.absent, none, none, 6, "t"⟩]
    ⟨[], []⟩).2 rfl (by decide)

/-! ## Claim theorems: token creation (C8) -/

/-- Claim C8 counterexample: the creation operation performs no freshness
check — when the store already holds the key `mkToken 5 "ab"` (i.e.
`"webhook-5-ab"`) and the clock and random suffix repeat, the operation
returns a token that was already a key of the store; moreover the token that
exists by default at process start is the fixed literal
`"webhook-secret-2024"`, not a generated value. -/
theorem C8_token_freshness_cex :
    (createTokenRoute [(mkToken 5 "ab", defaultTokenData "t0")] none 5 "t1" "ab").2.1 =
      mkToken 5 "ab" ∧
    storeHas [(mkToken 5 "ab", defaultTokenData "t0")] (mkToken 5 "ab") = true ∧
    defaultToken = "webhook-secret-2024" :=
  ⟨rfl, by decide, rfl⟩

/-- Claim C8 (amended): a created token is the concatenation
`"webhook-" ++ <current ms> ++ "-" ++ <random suffix>`; it is registered
with a zero usage count, no last-used time, and the requested (or default)
display name, and it is previously unused exactly when that string is not
already a key of the store — no freshness check is performed.  The default
token is the fixed literal `"webhook-secret-2024"`. -/
theorem C8_token_creation_amended (store : TokenStore) (name : Option String)
    (nowMs : Nat) (nowIso rand : String) :
    (createTokenRoute store name nowMs nowIso rand).2.1 = mkToken nowMs rand ∧
    mkToken nowMs rand = "webhook-" ++ Nat.repr nowMs ++ "-" ++ rand ∧
    (∃ nm,
      storeLookup (createTokenRoute store name nowMs nowIso rand).1 (mkToken nowMs rand) =
        some { name := nm, created := nowIso, lastUsed := none, usageCount := 0 } ∧
      (name = none → nm = "Generated Token")) ∧
    (storeHas store (mkToken nowMs rand) = false →
      storeHas store ((createTokenRoute store name nowMs nowIso rand).2.1) = false) ∧
    defaultToken = "webhook-secret-2024" := by
  refine ⟨rfl, rfl, ?_, ?_, rfl⟩
  · exact ⟨_, storeLookup_mapSet_self store (mkToken nowMs rand) _,
      fun hname => by subst hname; rfl⟩
  · intro h
    exact h

/-- Claim C8 witness: creating a token on the initial store at clock 7 with
random suffix `"abc"` registers `"webhook-7-abc"` fresh, with the default
display name and zero usage. -/
theorem C8_token_creation_amended_witness :
    storeHas (initialTokenStore "t0")
      ((createTokenRoute (initialTokenStore "t0") none 7 "t1" "abc").2.1) = false ∧
    (∃ nm,
      storeLookup (createTokenRoute (initialTokenStore "t0") none 7 "t1" "abc").1
          (mkToken 7 "abc") =
        some { name := nm, created := "t1", lastUsed := none, usageCount := 0 } ∧
      (none = (none : Option String) → nm = "Generated Token")) :=
  ⟨(C8_token_creation_amended (initialTokenStore "t0") none 7 "t1" "abc").2.2.2.1
    (by decide),
   (C8_token_creation_amended (initialTokenStore "t0") none 7 "t1" "abc").2.2.1⟩

end WebhookSrv
